import Mathlib

/-!
Verification of the pshovr push-notification client.

The development shallowly embeds the two source files of the repository:
`src/lib.rs` (priority codec, notification builder, transport client,
redacted diagnostics) and `src/bin/psh.rs` (payload resolver and entry
point).  Rust strings are modelled as `String`, byte streams as an
explicit `InputStream` state, fallible reads as `Option`, and the
panicking slice `&args[1..]` as an outer `Option` layer.
-/

namespace Pshovr

/-- Priority of a notification (`src/lib.rs`, `enum Priority`): exactly four
variants. -/
inductive Priority where
  | NoNotification
  | QuietNotification
  | HighPriority
  | RequireConfirmation
deriving DecidableEq

/-- Wire encoding of a `Priority` (`src/lib.rs`, `impl Serialize for Priority`):
the `match` assigning -2, -1, 1, 2 before `serialize_i8`. -/
def Priority.serialize : Priority → Int
  | .NoNotification => -2
  | .QuietNotification => -1
  | .HighPriority => 1
  | .RequireConfirmation => 2

/-- One outgoing message (`src/lib.rs`, `struct Notification`): three required
fields and four optional fields.  Borrowed `&str` fields are held as owned
`String`s, which preserves the values exchanged. -/
structure Notification where
  token : String
  user : String
  message : String
  title : Option String
  url : Option String
  url_title : Option String
  priority : Option Priority
deriving DecidableEq

/-- Setter generated by the `setter!` macro for `title` (`src/lib.rs`): moves
`self`, stores `Some(title)`, returns the notification.  Named `with_title`
because the field projection already occupies the source name `title`. -/
def Notification.with_title (n : Notification) (title : String) : Notification :=
  { n with title := some title }

/-- Setter generated by the `setter!` macro for `url` (`src/lib.rs`). -/
def Notification.with_url (n : Notification) (url : String) : Notification :=
  { n with url := some url }

/-- Setter generated by the `setter!` macro for `url_title` (`src/lib.rs`). -/
def Notification.with_url_title (n : Notification) (url_title : String) : Notification :=
  { n with url_title := some url_title }

/-- Setter generated by the `setter!` macro for `priority` (`src/lib.rs`). -/
def Notification.with_priority (n : Notification) (priority : Priority) : Notification :=
  { n with priority := some priority }

/-- The transport client (`src/lib.rs`, `struct PushoverClient`): the secret
token plus a reusable transport handle.  The external `reqwest::Client`
carries no observable state for these claims and is modelled as `Unit`. -/
structure PushoverClient where
  token : String
  client : Unit
deriving DecidableEq

/-- Constructor (`src/lib.rs`, `PushoverClient::new`): stores the token and a
fresh transport handle; no network activity. -/
def PushoverClient.new (token : String) : PushoverClient :=
  { token := token, client := () }

/-- Builder (`src/lib.rs`, `PushoverClient::build_notification`): the struct
literal setting the three required fields from the client's token and the
arguments, and `None` for every optional field. -/
def PushoverClient.build_notification (c : PushoverClient) (user message : String) :
    Notification :=
  { token := c.token
    user := user
    message := message
    title := none
    url := none
    url_title := none
    priority := none }

/-- Modelled from the spec: the request body produced by
`PushoverClient::send` (`src/lib.rs`, the `.form(&notification)` call).  The
derived `Serialize` together with the form encoder emits one key/value pair
per present field in declaration order; per spec §4.5 an absent optional
field is omitted entirely, and a present `priority` is emitted as its
encoded integer (§4.1).  The serde/urlencoded engine itself is an external
collaborator, not part of this repository's sources. -/
def serializeForm (n : Notification) : List (String × String) :=
  [("token", n.token), ("user", n.user), ("message", n.message)]
    ++ (match n.title with | none => [] | some t => [("title", t)])
    ++ (match n.url with | none => [] | some u => [("url", u)])
    ++ (match n.url_title with | none => [] | some ut => [("url_title", ut)])
    ++ (match n.priority with | none => [] | some p => [("priority", toString p.serialize)])

/-- Fixed redaction marker used in place of secret fields. -/
def redactionMarker : String := "[redacted]"

/-- Rendering of an optional string field for diagnostics. -/
def optRepr : Option String → String
  | none => "None"
  | some s => "Some(" ++ s ++ ")"

/-- Rendering of a `Priority` for diagnostics. -/
def Priority.debugRepr : Priority → String
  | .NoNotification => "NoNotification"
  | .QuietNotification => "QuietNotification"
  | .HighPriority => "HighPriority"
  | .RequireConfirmation => "RequireConfirmation"

/-- Rendering of an optional priority field for diagnostics. -/
def optPriorityRepr : Option Priority → String
  | none => "None"
  | some p => "Some(" ++ p.debugRepr ++ ")"

/-- Modelled from the spec: the `RedactedDebug` derive on `Notification`
(`src/lib.rs`) comes from the external `redacted_debug` crate, whose code is
not among this repository's sources.  Per spec §4.4 it renders every field,
replacing the field marked `#[redacted]` (`token`) by a fixed redaction
marker. -/
def Notification.redactedRepr (n : Notification) : String :=
  "Notification \x7b token: " ++ redactionMarker
    ++ ", user: " ++ n.user
    ++ ", message: " ++ n.message
    ++ ", title: " ++ optRepr n.title
    ++ ", url: " ++ optRepr n.url
    ++ ", url_title: " ++ optRepr n.url_title
    ++ ", priority: " ++ optPriorityRepr n.priority
    ++ " \x7d"

/-- Modelled from the spec: the `RedactedDebug` derive on `PushoverClient`
(`src/lib.rs`), with `token` redacted and the transport handle rendered by
its own debug form. -/
def PushoverClient.redactedRepr (_c : PushoverClient) : String :=
  "PushoverClient \x7b token: " ++ redactionMarker ++ ", client: Client \x7d"

/-- Executable check that `needle` occurs as a contiguous substring of
`haystack` (on the character lists of the two strings). -/
def containsSub (needle : List Char) : List Char → Bool
  | [] => needle.isEmpty
  | h :: t => needle.isPrefixOf (h :: t) || containsSub needle t

/-- A line-buffered byte source (`src/bin/psh.rs` takes `&mut dyn io::BufRead`):
its pending characters plus a flag modelling an I/O-level read failure. -/
structure InputStream where
  chars : List Char
  readErr : Bool
deriving DecidableEq

/-- Characters of the first line of a stream, up to and including the first
newline (the contract of `BufRead::read_line`). -/
def takeLine : List Char → List Char
  | [] => []
  | c :: cs => if c = '\n' then [c] else c :: takeLine cs

/-- One `read_line` call on the stream: fails when the stream is in error,
otherwise appends the first line (newline included) to the buffer and leaves
the rest of the stream. -/
def InputStream.readLine (s : InputStream) : Option (String × InputStream) :=
  if s.readErr then none
  else
    let line := takeLine s.chars
    some (String.mk line, ⟨s.chars.drop line.length, s.readErr⟩)

/-- Embedding of `_get_stdin_payload` (`src/bin/psh.rs`): `read_line` into a
fresh buffer, `.ok()?` on failure, `None` when zero bytes were read, else the
buffer.  The resulting stream state is returned explicitly. -/
def _get_stdin_payload (stdin : InputStream) : Option String × InputStream :=
  match stdin.readLine with
  | none => (none, stdin)
  | some (buf, rest) => if buf.length = 0 then (none, rest) else (some buf, rest)

/-- The `match cli_args.len()` body of `_get_payload` (`src/bin/psh.rs`),
taking the argument sequence with the program name already stripped: length 0
reads stdin, length 1 clones the single element, otherwise the elements are
joined with single spaces. -/
def resolve (cli_args : List String) (stdin : InputStream) :
    Option String × InputStream :=
  match cli_args with
  | [] => _get_stdin_payload stdin
  | [x] => (some x, stdin)
  | xs => (some (String.intercalate " " xs), stdin)

/-- Embedding of `_get_payload` (`src/bin/psh.rs`): the slice `&args[1..]`
is in bounds only when `args` has at least one element; an out-of-range index
panics, modelled by the outer `none`. -/
def _get_payload (args : List String) (stdin : InputStream) :
    Option (Option String × InputStream) :=
  if 1 ≤ args.length then some (resolve (args.drop 1) stdin) else none

/-- The Unicode `White_Space` code points, the set recognised by Rust's
`char::is_whitespace` which `str::trim_end` strips. -/
def rustIsWhitespace (c : Char) : Bool :=
  [0x09, 0x0A, 0x0B, 0x0C, 0x0D, 0x20, 0x85, 0xA0, 0x1680,
   0x2000, 0x2001, 0x2002, 0x2003, 0x2004, 0x2005, 0x2006, 0x2007,
   0x2008, 0x2009, 0x200A, 0x2028, 0x2029, 0x202F, 0x205F, 0x3000].contains c.toNat

/-- Rust's `str::trim_end` (used by `main` in `src/bin/psh.rs`): removes the
longest trailing run of whitespace characters. -/
def trim_end (s : String) : String :=
  String.mk ((s.data.reverse.dropWhile rustIsWhitespace).reverse)

/-- The notification constructed by `main` (`src/bin/psh.rs`) for given
environment keys, process arguments and stdin: outer `none` models the panic
of the argument slice, inner `none` the early error exit when no payload
resolves; otherwise `build_notification` is applied to the payload after
`trim_end`. -/
def mainNotification (api_key user_key : String) (args : List String)
    (stdin : InputStream) : Option (Option Notification) :=
  match _get_payload args stdin with
  | none => none
  | some (none, _) => some none
  | some (some payload, _) =>
      some (some ((PushoverClient.new api_key).build_notification user_key
        (trim_end payload)))

/-- The first line of a nonempty stream is nonempty. -/
theorem takeLine_ne_nil {cs : List Char} (h : cs ≠ []) : takeLine cs ≠ [] := by
  cases cs with
  | nil => exact absurd rfl h
  | cons c cs => simp only [takeLine]; split <;> simp

/-- When the stream contains a newline, the first line ends with it. -/
theorem takeLine_getLast_newline : ∀ {cs : List Char}, '\n' ∈ cs →
    (takeLine cs).getLast? = some '\n' := by
  intro cs h
  induction cs with
  | nil => cases h
  | cons c cs ih =>
    simp only [takeLine]
    by_cases hc : c = '\n'
    · simp [hc]
    · rw [if_neg hc]
      have hmem : '\n' ∈ cs := by
        rcases List.mem_cons.mp h with h1 | h1
        · exact absurd h1.symm hc
        · exact h1
      have hne : takeLine cs ≠ [] := takeLine_ne_nil (by rintro rfl; cases hmem)
      rcases hl : takeLine cs with _ | ⟨d, ds⟩
      · exact absurd hl hne
      · rw [List.getLast?_cons_cons, ← hl]
        exact ih hmem

/-- A string stripped by `trim_end` never ends in a whitespace character. -/
theorem getLast?_trim_end (s : String) (c : Char)
    (h : (trim_end s).data.getLast? = some c) : rustIsWhitespace c = false := by
  have hd : (trim_end s).data = (s.data.reverse.dropWhile rustIsWhitespace).reverse := rfl
  rw [hd, List.getLast?_reverse] at h
  have h2 := List.head?_dropWhile_not rustIsWhitespace s.data.reverse
  rw [h] at h2
  exact h2

/-- C1: `resolve` follows the three-case precedence: empty arguments read one
line from the stream (absent on read failure or zero bytes, otherwise the
line with its trailing terminator); one argument is returned verbatim; two or
more arguments are joined with single spaces in order. -/
theorem resolve_precedence (args : List String) (stdin : InputStream) :
    (args = [] → stdin.readErr = true → (resolve args stdin).1 = none) ∧
    (args = [] → stdin.readErr = false → stdin.chars = [] →
      (resolve args stdin).1 = none) ∧
    (args = [] → stdin.readErr = false → stdin.chars ≠ [] →
      (resolve args stdin).1 = some (String.mk (takeLine stdin.chars)) ∧
      ('\n' ∈ stdin.chars → (takeLine stdin.chars).getLast? = some '\n')) ∧
    (∀ x, args = [x] → resolve args stdin = (some x, stdin)) ∧
    (2 ≤ args.length → resolve args stdin = (some (String.intercalate " " args), stdin)) := by
  refine ⟨?_, ?_, ?_, ?_, ?_⟩
  · intro h1 h2; subst h1
    simp [resolve, _get_stdin_payload, InputStream.readLine, h2]
  · intro h1 h2 h3; subst h1
    simp [resolve, _get_stdin_payload, InputStream.readLine, h2, h3, takeLine]
  · intro h1 h2 h3; subst h1
    have hne := takeLine_ne_nil h3
    have hlen : (String.mk (takeLine stdin.chars)).length ≠ 0 := by
      simpa [String.length, List.length_eq_zero] using hne
    refine ⟨?_, fun hm => takeLine_getLast_newline hm⟩
    simp [resolve, _get_stdin_payload, InputStream.readLine, h2, hlen]
    rw [if_neg hne]
  · intro x h1; subst h1; rfl
  · intro h2
    match args with
    | [] => simp at h2
    | [x] => simp at h2
    | x :: y :: rest => rfl

/-- Witness for C1 at concrete inputs: a stream holding a line, a single
argument, and a three-argument sequence. -/
theorem resolve_precedence_witness :
    (resolve [] ⟨['h', 'i', '\n', 'x'], false⟩).1
      = some (String.mk (takeLine ['h', 'i', '\n', 'x'])) ∧
    resolve ["one arg"] ⟨[], false⟩ = (some "one arg", ⟨[], false⟩) ∧
    resolve ["hello", "yes", "!!!"] ⟨[], false⟩
      = (some (String.intercalate " " ["hello", "yes", "!!!"]), ⟨[], false⟩) := by
  refine ⟨((resolve_precedence [] ⟨['h', 'i', '\n', 'x'], false⟩).2.2.1 rfl rfl
    (by decide)).1, ?_, ?_⟩
  · exact (resolve_precedence ["one arg"] ⟨[], false⟩).2.2.2.1 "one arg" rfl
  · exact (resolve_precedence ["hello", "yes", "!!!"] ⟨[], false⟩).2.2.2.2 (by decide)

/-- C5: with a non-empty argument sequence, `resolve` returns the same
payload on any two streams and returns its stream unchanged. -/
theorem resolve_ignores_stdin (args : List String) (h : args ≠ [])
    (s₁ s₂ : InputStream) :
    (resolve args s₁).1 = (resolve args s₂).1 ∧ (resolve args s₁).2 = s₁ := by
  match args with
  | [] => exact absurd rfl h
  | [x] => exact ⟨rfl, rfl⟩
  | x :: y :: rest => exact ⟨rfl, rfl⟩

/-- Witness for C5: one argument, two different streams. -/
theorem resolve_ignores_stdin_witness :
    (resolve ["x"] ⟨['a'], false⟩).1 = (resolve ["x"] ⟨['b'], true⟩).1 ∧
    (resolve ["x"] ⟨['a'], false⟩).2 = ⟨['a'], false⟩ :=
  resolve_ignores_stdin ["x"] (by decide) ⟨['a'], false⟩ ⟨['b'], true⟩

/-- C10: `_get_payload` slices `args[1..]`, which is in bounds exactly when
`args` is nonempty; on the empty vector the slice index is out of range
(modelled by `none`). -/
theorem get_payload_requires_nonempty_args (args : List String) (stdin : InputStream) :
    (args ≠ [] → (_get_payload args stdin).isSome = true) ∧
    (args = [] → _get_payload args stdin = none) := by
  cases args with
  | nil =>
    refine ⟨fun h => absurd rfl h, fun _ => ?_⟩
    simp [_get_payload]
  | cons a as =>
    refine ⟨fun _ => ?_, fun h => by cases h⟩
    simp [_get_payload, Nat.succ_le_succ]

/-- Witness for C10: a one-element vector succeeds, the empty vector panics. -/
theorem get_payload_requires_nonempty_args_witness :
    (_get_payload ["psh"] ⟨[], false⟩).isSome = true ∧
    _get_payload [] ⟨[], false⟩ = none :=
  ⟨(get_payload_requires_nonempty_args ["psh"] ⟨[], false⟩).1 (by decide),
   (get_payload_requires_nonempty_args [] ⟨[], false⟩).2 rfl⟩

/-- C2: the priority encoding is the fixed table (-2, -1, 1, 2 for the four
variants), and a notification whose priority is `HighPriority` serializes
with the value 1 for the `priority` field. -/
theorem priority_encoding :
    Priority.serialize .NoNotification = -2 ∧
    Priority.serialize .QuietNotification = -1 ∧
    Priority.serialize .HighPriority = 1 ∧
    Priority.serialize .RequireConfirmation = 2 ∧
    ∀ n : Notification, n.priority = some .HighPriority →
      ("priority", "1") ∈ serializeForm n := by
  refine ⟨rfl, rfl, rfl, rfl, ?_⟩
  intro n h
  have h1 : toString (Priority.serialize .HighPriority) = "1" := rfl
  simp [serializeForm, h, h1]

/-- Witness for C2: a built notification with `HighPriority` set carries the
pair `("priority", "1")` in its serialized form. -/
theorem priority_encoding_witness :
    ("priority", "1") ∈ serializeForm
      (((PushoverClient.new "tok").build_notification "user key" "msg").with_priority
        .HighPriority) :=
  priority_encoding.2.2.2.2 _ rfl

/-- C3: an optional field left unset contributes no key at all to the
serialized form, and a freshly built notification serializes with exactly the
keys `token`, `user`, `message`. -/
theorem serializeForm_omits_unset (n : Notification) :
    (n.title = none → "title" ∉ (serializeForm n).map Prod.fst) ∧
    (n.url = none → "url" ∉ (serializeForm n).map Prod.fst) ∧
    (n.url_title = none → "url_title" ∉ (serializeForm n).map Prod.fst) ∧
    (n.priority = none → "priority" ∉ (serializeForm n).map Prod.fst) ∧
    (∀ c u m, (serializeForm (PushoverClient.build_notification c u m)).map Prod.fst
      = ["token", "user", "message"]) := by
  obtain ⟨tok, us, msg, ti, ur, urt, pr⟩ := n
  refine ⟨?_, ?_, ?_, ?_, fun c u m => rfl⟩
  · rintro rfl
    rcases ur with _ | u <;> rcases urt with _ | ut <;> rcases pr with _ | p <;>
      simp [serializeForm]
  · rintro rfl
    rcases ti with _ | t <;> rcases urt with _ | ut <;> rcases pr with _ | p <;>
      simp [serializeForm]
  · rintro rfl
    rcases ti with _ | t <;> rcases ur with _ | u <;> rcases pr with _ | p <;>
      simp [serializeForm]
  · rintro rfl
    rcases ti with _ | t <;> rcases ur with _ | u <;> rcases urt with _ | ut <;>
      simp [serializeForm]

/-- Witness for C3: the serialized form of a notification built with no
setters has no `title` key. -/
theorem serializeForm_omits_unset_witness :
    "title" ∉ (serializeForm
      ((PushoverClient.new "tok").build_notification "u" "m")).map Prod.fst :=
  (serializeForm_omits_unset _).1 rfl

/-- C6: `build_notification` takes the token from the client, the user and
message from its arguments, and leaves all four optional fields unset. -/
theorem build_notification_fields (c : PushoverClient) (u m : String) :
    (c.build_notification u m).token = c.token ∧
    (c.build_notification u m).user = u ∧
    (c.build_notification u m).message = m ∧
    (c.build_notification u m).title = none ∧
    (c.build_notification u m).url = none ∧
    (c.build_notification u m).url_title = none ∧
    (c.build_notification u m).priority = none :=
  ⟨rfl, rfl, rfl, rfl, rfl, rfl, rfl⟩

/-- C7: every setter populates exactly its own field and leaves the rest
unchanged, a repeated setter keeps only the last value, and distinct setters
commute, so any order and any subset may be applied. -/
theorem setters_frame (n : Notification) (t t' u u' ut ut' : String) (p p' : Priority) :
    n.with_title t = { n with title := some t } ∧
    n.with_url u = { n with url := some u } ∧
    n.with_url_title ut = { n with url_title := some ut } ∧
    n.with_priority p = { n with priority := some p } ∧
    (n.with_title t).with_title t' = n.with_title t' ∧
    (n.with_url u).with_url u' = n.with_url u' ∧
    (n.with_url_title ut).with_url_title ut' = n.with_url_title ut' ∧
    (n.with_priority p).with_priority p' = n.with_priority p' ∧
    (n.with_title t).with_url u = (n.with_url u).with_title t ∧
    (n.with_title t).with_url_title ut = (n.with_url_title ut).with_title t ∧
    (n.with_title t).with_priority p = (n.with_priority p).with_title t ∧
    (n.with_url u).with_url_title ut = (n.with_url_title ut).with_url u ∧
    (n.with_url u).with_priority p = (n.with_priority p).with_url u ∧
    (n.with_url_title ut).with_priority p = (n.with_priority p).with_url_title ut :=
  ⟨rfl, rfl, rfl, rfl, rfl, rfl, rfl, rfl, rfl, rfl, rfl, rfl, rfl, rfl⟩

/-- C4 counterexample: a notification whose message coincides with its token
shows the literal token string occurring inside the redacted representation,
so the representation does not avoid the token byte sequence in general. -/
theorem redactedRepr_contains_token_cex :
    containsSub (Notification.mk "test" "user key" "test" none none none none).token.data
      (Notification.mk "test" "user key" "test" none none none none).redactedRepr.data
      = true := by
  decide

/-- C4 amended: the redacted representation of a Client or Notification does
not depend on the token field at all, so any two values differing only in
the token have byte-identical representations; the token string itself can
still occur when it coincides with non-secret content. -/
theorem redactedRepr_token_independent (n : Notification) (t : String)
    (c : PushoverClient) (t' : String) :
    Notification.redactedRepr { n with token := t } = Notification.redactedRepr n ∧
    PushoverClient.redactedRepr { c with token := t' } = PushoverClient.redactedRepr c :=
  ⟨rfl, rfl⟩

/-- C8 counterexample: invoked with the single empty argument, the program
builds a notification whose message is the empty string, so the constructed
message is not always non-empty. -/
theorem main_empty_message_cex :
    mainNotification "api key" "user key" ["psh", ""] ⟨[], false⟩
      = some (some ((PushoverClient.new "api key").build_notification "user key" "")) ∧
    ((PushoverClient.new "api key").build_notification "user key" "").message = "" := by
  refine ⟨by decide, rfl⟩

/-- C8 amended: every notification the program constructs carries as message
the resolved payload stripped of all trailing whitespace by `trim_end`; the
message therefore never ends in a whitespace character, but it may be empty. -/
theorem main_message_trimmed (k u : String) (args : List String)
    (stdin : InputStream) (n : Notification)
    (h : mainNotification k u args stdin = some (some n)) :
    (∃ payload s', _get_payload args stdin = some (some payload, s') ∧
      n.message = trim_end payload) ∧
    (∀ c, n.message.data.getLast? = some c → rustIsWhitespace c = false) := by
  unfold mainNotification at h
  rcases hg : _get_payload args stdin with _ | ⟨_ | payload, s'⟩
  · rw [hg] at h; cases h
  · rw [hg] at h; simp at h
  · rw [hg] at h
    simp only [Option.some.injEq] at h
    subst h
    exact ⟨⟨payload, s', rfl, rfl⟩, fun c hc => getLast?_trim_end payload c hc⟩

/-- Witness for C8 amended: the payload of the run with argument sequence
containing a trailing space yields the message with the space removed, whose
last character is not whitespace. -/
theorem main_message_trimmed_witness :
    rustIsWhitespace 'i' = false ∧
    mainNotification "api key" "user key" ["psh", "hi "] ⟨[], false⟩
      = some (some ((PushoverClient.new "api key").build_notification "user key" "hi")) := by
  refine ⟨?_, by decide⟩
  exact (main_message_trimmed "api key" "user key" ["psh", "hi "] ⟨[], false⟩
    ((PushoverClient.new "api key").build_notification "user key" "hi")
    (by decide)).2 'i' (by decide)

/-- C9 counterexample: for the resolved payload consisting of text followed
by a trailing space and no line terminator, the program passes the message
with the space removed, although the claim requires non-terminator trailing
whitespace to be left intact. -/
theorem main_trims_spaces_cex :
    (resolve ["hi "] ⟨[], false⟩).1 = some "hi " ∧
    (mainNotification "k" "u" ["psh", "hi "] ⟨[], false⟩).map
      (Option.map Notification.message) = some (some "hi") ∧
    ("hi" : String) ≠ "hi " := by
  refine ⟨by decide, by decide, by decide⟩

/-- C9 amended: before sending, the program removes exactly the longest
trailing run of whitespace characters (line terminators included) from the
resolved payload — the message is a prefix of the payload whose removed
suffix is all whitespace, so leading whitespace is left intact — and the
notification is built from that trimmed payload. -/
theorem trim_end_only_trailing_whitespace (p : String) (k u : String)
    (args : List String) (stdin : InputStream) :
    (∃ ws : List Char, p.data = (trim_end p).data ++ ws ∧
      ∀ c ∈ ws, rustIsWhitespace c = true) ∧
    (∀ c, (trim_end p).data.getLast? = some c → rustIsWhitespace c = false) ∧
    (∀ payload s', _get_payload args stdin = some (some payload, s') →
      mainNotification k u args stdin
        = some (some ((PushoverClient.new k).build_notification u (trim_end payload)))) := by
  refine ⟨⟨(p.data.reverse.takeWhile rustIsWhitespace).reverse, ?_, ?_⟩, ?_, ?_⟩
  · have h := List.takeWhile_append_dropWhile (p := rustIsWhitespace) (l := p.data.reverse)
    conv_lhs => rw [← List.reverse_reverse p.data, ← h]
    rw [List.reverse_append]
    rfl
  · intro c hc
    rw [List.mem_reverse] at hc
    simpa using List.mem_takeWhile_imp hc
  · exact fun c hc => getLast?_trim_end p c hc
  · intro payload s' hg
    unfold mainNotification
    rw [hg]

/-- Witness for C9 amended: a payload ending in a space and a newline. -/
theorem trim_end_only_trailing_whitespace_witness :
    mainNotification "k2" "u2" ["psh", "a \n"] ⟨[], false⟩
      = some (some ((PushoverClient.new "k2").build_notification "u2" (trim_end "a \n"))) :=
  (trim_end_only_trailing_whitespace "a \n" "k2" "u2" ["psh", "a \n"]
    ⟨[], false⟩).2.2 "a \n" ⟨[], false⟩ (by decide)

end Pshovr
